import Mathlib

/-!
# Verification of the FinSight alert evaluator and trending resolver

Shallow embedding of `src/main.py` (FinSight). Prices are modelled as
rationals; calls into external services (yfinance, the Yahoo/FMP HTTP
endpoints, the push-notification sink) are modelled as oracle parameters
whose result type covers the outcomes the spec's adapter contract allows:
a quote, an empty result, or a raised exception.
-/

/-- Outcome of `yf.Ticker(sym).history(period="1d")` as observed by
`check_alerts`: a non-empty frame whose last close is `p`, an empty
frame, or a raised exception from the library/transport. -/
inductive FetchResult where
  | quote (p : ℚ)
  | empty
  | err
deriving DecidableEq

/-- The `Alert` pydantic model of `src/main.py` (lines 76-80). -/
structure Alert where
  symbol : String
  condition : String
  target_price : ℚ
  triggered : Bool
deriving DecidableEq

/-- A title/body pair handed to the notification sink
(`requests.post("http://localhost:3000/api/push/send", json={...})`). -/
structure Note where
  title : String
  body : String
deriving DecidableEq

/-- Round `q * 100` to the nearest integer (half rounds up), via floor
division: `⌊(200 num + den) / (2 den)⌋`. -/
def cents (q : ℚ) : ℤ :=
  Int.fdiv (200 * q.num + (q.den : ℤ)) (2 * (q.den : ℤ))

/-- Two-decimal rendering of a price, modelling Python's `f"{x:.2f}"`
(exact on prices that are whole cents, which is all the claims evaluate). -/
def fmt2 (q : ℚ) : String :=
  let c : ℤ := cents q
  let n : ℕ := c.natAbs
  let fr : ℕ := n % 100
  (if c < 0 then "-" else "") ++ toString (n / 100) ++ "." ++
    (if fr < 10 then "0" ++ toString fr else toString fr)

/-- Python's `str.upper()` (per-character uppercasing; coincides with
Python on the ASCII ticker symbols involved).  Defined structurally over
the character list so that it evaluates inside the kernel. -/
def pyUpper (s : String) : String :=
  String.mk (s.data.map Char.toUpper)

/-- Python's `str.strip()` with the default whitespace set: drop leading
and trailing whitespace characters. -/
def pyStrip (s : String) : String :=
  String.mk
    (((s.data.dropWhile Char.isWhitespace).reverse.dropWhile
        Char.isWhitespace).reverse)

/-- The notification title built in `check_alerts` (line 373). -/
def alertTitle (a : Alert) : String :=
  a.symbol ++ " Alert 🚨"

/-- The notification body `msg` built in `check_alerts` (lines 363-367). -/
def alertBody (a : Alert) (p : ℚ) : String :=
  a.symbol ++ " is now " ++ (if a.condition == "above" then "above" else "below")
    ++ " $" ++ fmt2 a.target_price ++ " (current $" ++ fmt2 p ++ ")"

/-- The trigger predicate of `check_alerts` (lines 356-359): the condition
string is compared against the exact lowercase literals. -/
def evalTriggered (a : Alert) (p : ℚ) : Bool :=
  (a.condition == "above" && decide (a.target_price < p)) ||
  (a.condition == "below" && decide (p < a.target_price))

/-- What one loop iteration of `check_alerts` does to a single alert when
it is reached and its fetch does not raise (the `err` branch is listed for
totality; in `check_alerts` it aborts the cycle instead).  Returns the
updated alert and the notification attempted for it, if any. -/
def evalOne (fetch : String → FetchResult) (a : Alert) : Alert × Option Note :=
  if a.triggered then (a, none)
  else
    match fetch a.symbol with
    | .err => (a, none)
    | .empty => (a, none)
    | .quote p =>
      if evalTriggered a p then
        ({ a with triggered := true }, some ⟨alertTitle a, alertBody a p⟩)
      else (a, none)

/-- Observable outcome of one `check_alerts` cycle: `results` pairs each
store entry (positionally) with its post-cycle state and the notification
attempted for it; `calls` records the alerts for which the quote source was
invoked, in order; `aborted` is true when a fetch raised (the exception
propagates out of the loop); `sinkFailures` records notifications whose
post raised (caught and logged by the `try/except` at lines 370-377). -/
structure CycleResult where
  results : List (Alert × Option Note)
  calls : List Alert
  aborted : Bool
  sinkFailures : List Note
deriving DecidableEq

/-- `check_alerts` (lines 344-377) over a store snapshot.  `fetch` models
`yf.Ticker(..).history("1d")`, `sink` models the `requests.post` to the
push endpoint (`true` = delivered, `false` = raised).  A raised fetch has
no handler in the source, so it aborts the remaining iterations; already
`triggered` alerts are skipped by the `continue` at line 348; an empty
frame is skipped by the `continue` at line 353. -/
def check_alerts (fetch : String → FetchResult) (sink : Note → Bool) :
    List Alert → CycleResult
  | [] => ⟨[], [], false, []⟩
  | a :: rest =>
    if a.triggered then
      let r := check_alerts fetch sink rest
      ⟨(a, none) :: r.results, r.calls, r.aborted, r.sinkFailures⟩
    else
      match fetch a.symbol with
      | .err => ⟨(a :: rest).map (fun x => (x, none)), [a], true, []⟩
      | .empty =>
        let r := check_alerts fetch sink rest
        ⟨(a, none) :: r.results, a :: r.calls, r.aborted, r.sinkFailures⟩
      | .quote p =>
        if evalTriggered a p then
          let note : Note := ⟨alertTitle a, alertBody a p⟩
          let r := check_alerts fetch sink rest
          ⟨({ a with triggered := true }, some note) :: r.results, a :: r.calls,
            r.aborted, if sink note then r.sinkFailures else note :: r.sinkFailures⟩
        else
          let r := check_alerts fetch sink rest
          ⟨(a, none) :: r.results, a :: r.calls, r.aborted, r.sinkFailures⟩

/-- Notifications attempted during a cycle, in store order. -/
def notesOf (c : CycleResult) : List Note :=
  c.results.filterMap Prod.snd

/-- The alert store after one cycle. -/
def cycleAlerts (fetch : String → FetchResult) (sink : Note → Bool)
    (store : List Alert) : List Alert :=
  ((check_alerts fetch sink store).results).map Prod.fst

/-- `n` successive evaluation cycles; the fetch and sink oracles may differ
from cycle to cycle (`F k` / `S k` drive the `k`-th cycle). -/
def cycles (F : ℕ → String → FetchResult) (S : ℕ → Note → Bool) :
    ℕ → List Alert → List Alert
  | 0, store => store
  | n + 1, store =>
    cycles (fun k => F (k + 1)) (fun k => S (k + 1)) n
      (cycleAlerts (F 0) (S 0) store)

/-- `create_alert` (lines 316-320): uppercases the symbol in place and
appends the alert to `alerts_db`; returns the new store and the stored
alert. -/
def create_alert (a : Alert) (db : List Alert) : List Alert × Alert :=
  let a2 := { a with symbol := pyUpper a.symbol }
  (db ++ [a2], a2)

/-- Boolean substring occurrence on character lists (spec-side helper used
to state "the body contains ...'"). -/
def subOccurs : List Char → List Char → Bool
  | needle, [] => needle.isEmpty
  | needle, c :: t => List.isPrefixOf needle (c :: t) || subOccurs needle t

/-- `containsSub hay needle` holds when `needle` occurs contiguously in
`hay` (spec-side helper). -/
def containsSub (hay needle : String) : Bool :=
  subOccurs needle.toList hay.toList

/-!
## Trending resolver (`/trending`, lines 196-280) and `get_current_price`
-/

/-- The three Yahoo strategies tried, in order, for region `US`
(lines 218-244). -/
inductive Strategy where
  | trendingFeed
  | dayGainers
  | mostActives
deriving DecidableEq

/-- Upstream outcome of one Yahoo strategy request as seen by
`fetch_symbols`: the request/parse raised (network error, non-2xx via
`raise_for_status`, absent `finance.result`), or it parsed to a quote
list carrying these symbols. -/
inductive YahooResp where
  | raised
  | quotes (syms : List String)
deriving DecidableEq

/-- `fetch_symbols` (lines 207-214): raises `ValueError("no-quotes")` when
the parsed quote list is empty, otherwise returns the symbols. -/
def fetch_symbols (r : YahooResp) : Except Unit (List String) :=
  match r with
  | .raised => .error ()
  | .quotes syms => if syms.isEmpty then .error () else .ok syms

/-- The nested try/except chain of lines 218-244: only for region code
`"US"`; each failure falls through to the next strategy; if all three fail,
`symbols` is left `[]`.  Also records which strategies were invoked, in
order. -/
def yahooPhase (region_code : String) (yahoo : Strategy → YahooResp) :
    List String × List Strategy :=
  if region_code == "US" then
    match fetch_symbols (yahoo .trendingFeed) with
    | .ok s => (s, [.trendingFeed])
    | .error _ =>
      match fetch_symbols (yahoo .dayGainers) with
      | .ok s => (s, [.trendingFeed, .dayGainers])
      | .error _ =>
        match fetch_symbols (yahoo .mostActives) with
        | .ok s => (s, [.trendingFeed, .dayGainers, .mostActives])
        | .error _ => ([], [.trendingFeed, .dayGainers, .mostActives])
  else ([], [])

/-- The FMP stock-screener response (lines 257-261): HTTP status `ok`
flag, status code, and the symbols extracted from the JSON array. -/
structure FmpResp where
  ok : Bool
  statusCode : ℕ
  syms : List String
deriving DecidableEq

/-- The `FMP_EXCHANGE` region→exchange map (lines 116-121), with the
`.get(region_code, "NASDAQ")` default of line 248. -/
def FMP_EXCHANGE (region_code : String) : String :=
  if region_code == "US" then "NASDAQ"
  else if region_code == "IN" then "BSE"
  else if region_code == "GB" then "LSE"
  else "NASDAQ"

/-- A Python exception escaping an endpoint: a FastAPI `HTTPException`
with status code and detail, or any other raised exception. -/
inductive PyErr where
  | http (code : ℕ) (detail : String)
  | other
deriving DecidableEq

/-- The fields of `get_current_price`'s `PriceResponse` that the trending
enrichment reads (symbol, name, logo_url, price); the remaining metadata
fields are copied from the same upstream `info` dict and are not consulted
by any claim. -/
structure PriceR where
  symbol : String
  name : Option String
  logo_url : Option String
  price : ℚ
deriving DecidableEq

/-- `get_current_price` (lines 138-194), projected to the fields the
trending pass reads.  `meta` models the name/logo derived from
`ticker.info` (the name-or-fallback and clearbit-logo heuristics are
out-of-scope glue per the spec and folded into the oracle); `hist` models
`ticker.history(period="2d")` as the list of closes, `.error` meaning the
library raised.  Fewer than two rows raises `HTTPException(404, ...)`; the
price returned is the last close. -/
def get_current_price (meta : String → Option String × Option String)
    (hist : String → Except Unit (List ℚ)) (symbol : String) :
    Except PyErr PriceR :=
  let sym := pyUpper (pyStrip symbol)
  match hist sym with
  | .error _ => .error .other
  | .ok closes =>
    if closes.length < 2 then
      .error (.http 404 "Symbol not found or insufficient data")
    else
      match closes.getLast? with
      | some c => .ok ⟨sym, (meta sym).1, (meta sym).2, c⟩
      | none => .error (.http 404 "Symbol not found or insufficient data")

/-- The `TrendingTicker` response model (lines 30-34). -/
structure TrendingTicker where
  symbol : String
  name : Option String
  logo_url : Option String
  price : Option ℚ
deriving DecidableEq

/-- The enrichment loop of lines 267-280: for each symbol call
`get_current_price`; on `HTTPException` append a partial record
`(sym, None, None, None)`; any other raised exception has no handler and
propagates, aborting the loop.  Also returns the symbols for which an
enrichment call was issued, in order. -/
def enrich (meta : String → Option String × Option String)
    (hist : String → Except Unit (List ℚ)) :
    List String → Except PyErr (List TrendingTicker) × List String
  | [] => (.ok [], [])
  | sym :: rest =>
    match get_current_price meta hist sym with
    | .ok pr =>
      let r := enrich meta hist rest
      (match r.1 with
       | .ok out => .ok (⟨pr.symbol, pr.name, pr.logo_url, some pr.price⟩ :: out)
       | .error e => .error e, sym :: r.2)
    | .error (.http _ _) =>
      let r := enrich meta hist rest
      (match r.1 with
       | .ok out => .ok (⟨sym, none, none, none⟩ :: out)
       | .error e => .error e, sym :: r.2)
    | .error .other => (.error .other, [sym])

/-- Symbol resolution of `get_trending` before the enrichment pass
(lines 205-264): the Yahoo phase for `US`, then the FMP fallback whenever
`symbols` is empty (`fmp` is keyed by the exchange code; `.error ()` means
`requests.get` raised), then the final empty check raising
`HTTPException(502, "No trending/gainers for region '...'")`.  Returns the
result, the Yahoo strategies invoked, and whether FMP was called. -/
def resolve_symbols (region : String) (yahoo : Strategy → YahooResp)
    (fmp : String → Except Unit FmpResp) :
    Except PyErr (List String) × List Strategy × Bool :=
  let region_code := pyUpper region
  let y := yahooPhase region_code yahoo
  if y.1.isEmpty then
    match fmp (FMP_EXCHANGE region_code) with
    | .error _ => (.error .other, y.2, true)
    | .ok resp =>
      if resp.ok then
        if resp.syms.isEmpty then
          (.error (.http 502 ("No trending/gainers for region '" ++ region_code ++ "'")),
            y.2, true)
        else (.ok resp.syms, y.2, true)
      else
        (.error (.http 502 ("FMP fallback failed (" ++ toString resp.statusCode ++ ")")),
          y.2, true)
  else (.ok y.1, y.2, false)

instance {ε α : Type} [DecidableEq ε] [DecidableEq α] :
    DecidableEq (Except ε α) := fun x y =>
  match x, y with
  | .ok a, .ok b =>
    if h : a = b then .isTrue (by rw [h]) else .isFalse (by simp [h])
  | .ok _, .error _ => .isFalse (by simp)
  | .error _, .ok _ => .isFalse (by simp)
  | .error e, .error f =>
    if h : e = f then .isTrue (by rw [h]) else .isFalse (by simp [h])

/-- Observable outcome of one `/trending` call. -/
structure TrendOut where
  result : Except PyErr (List TrendingTicker)
  yahooCalls : List Strategy
  fmpCalled : Bool
  enrichCalls : List String
deriving DecidableEq

/-- `get_trending` (lines 201-280): resolve symbols, then enrich each via
`get_current_price`.  The `count` query parameter only reshapes the
upstream requests, which the oracles absorb. -/
def get_trending (region : String) (yahoo : Strategy → YahooResp)
    (fmp : String → Except Unit FmpResp)
    (meta : String → Option String × Option String)
    (hist : String → Except Unit (List ℚ)) : TrendOut :=
  let r := resolve_symbols region yahoo fmp
  match r.1 with
  | .error e => ⟨.error e, r.2.1, r.2.2, []⟩
  | .ok syms =>
    let e := enrich meta hist syms
    ⟨e.1, r.2.1, r.2.2, e.2⟩

/-!
## Concrete oracle instances used in scenario checks
-/

/-- A Yahoo oracle whose trending feed fails and whose day-gainers
screener returns `["A", "B"]`. -/
def w4yahoo : Strategy → YahooResp := fun st =>
  match st with
  | .dayGainers => .quotes ["A", "B"]
  | _ => .raised

/-- A Yahoo oracle whose trending feed returns `["A", "B"]`. -/
def c5yahoo : Strategy → YahooResp := fun st =>
  match st with
  | .trendingFeed => .quotes ["A", "B"]
  | _ => .raised

/-- A Yahoo oracle for which every strategy request raises. -/
def c6yahoo : Strategy → YahooResp := fun _ => .raised

/-- An FMP oracle answering 200 OK with an empty symbol array. -/
def okFmpEmpty : String → Except Unit FmpResp := fun _ => .ok ⟨true, 200, []⟩

/-- A metadata oracle with a fixed name and logo. -/
def c5meta : String → Option String × Option String :=
  fun _ => (some "Name", some "Logo")

/-- A history oracle that raises for symbol `A` and returns two closes
(last close 2) for every other symbol. -/
def c5hist : String → Except Unit (List ℚ) :=
  fun s => if s == "A" then .error () else .ok [1, 2]

/-- A history oracle that returns an empty frame for symbol `A` and two
closes (last close 2) for every other symbol. -/
def w5hist : String → Except Unit (List ℚ) :=
  fun s => if s == "A" then .ok [] else .ok [1, 2]

/-!
## Shared lemmas about the evaluation cycle
-/

theorem evalOne_of_triggered (fetch : String → FetchResult) (a : Alert)
    (h : a.triggered = true) : evalOne fetch a = (a, none) := by
  simp [evalOne, h]

theorem evalTriggered_of_cond_other (a : Alert) (h1 : a.condition ≠ "above")
    (h2 : a.condition ≠ "below") : ∀ p, evalTriggered a p = false := by
  intro p
  have e1 : (a.condition == "above") = false := beq_eq_false_iff_ne.mpr h1
  have e2 : (a.condition == "below") = false := beq_eq_false_iff_ne.mpr h2
  simp [evalTriggered, e1, e2]

theorem evalOne_of_cond_other (fetch : String → FetchResult) (a : Alert)
    (h1 : a.condition ≠ "above") (h2 : a.condition ≠ "below") :
    evalOne fetch a = (a, none) := by
  cases ha : a.triggered with
  | true => exact evalOne_of_triggered fetch a ha
  | false =>
    cases hf : fetch a.symbol with
    | err => simp [evalOne, ha, hf]
    | empty => simp [evalOne, ha, hf]
    | quote p => simp [evalOne, ha, hf, evalTriggered_of_cond_other a h1 h2]

theorem check_alerts_results_length (fetch : String → FetchResult)
    (sink : Note → Bool) :
    ∀ l : List Alert, ((check_alerts fetch sink l).results).length = l.length := by
  intro l
  induction l with
  | nil => rfl
  | cons a rest ih =>
    cases ha : a.triggered with
    | true => simp [check_alerts, ha, ih]
    | false =>
      cases hf : fetch a.symbol with
      | err => simp [check_alerts, ha, hf]
      | empty => simp [check_alerts, ha, hf, ih]
      | quote p =>
        cases ht : evalTriggered a p with
        | true => simp [check_alerts, ha, hf, ht, ih]
        | false => simp [check_alerts, ha, hf, ht, ih]

theorem check_alerts_results_get_total (fetch : String → FetchResult)
    (sink : Note → Bool) :
    ∀ (l : List Alert) (i : ℕ) (a : Alert), l[i]? = some a →
      ((check_alerts fetch sink l).results)[i]? = some (evalOne fetch a) ∨
      ((check_alerts fetch sink l).results)[i]? = some (a, none) := by
  intro l
  induction l with
  | nil => intro i a h; simp at h
  | cons b rest ih =>
    intro i a hl
    cases ha : b.triggered with
    | true =>
      cases i with
      | zero =>
        simp at hl
        subst hl
        left
        simp [check_alerts, ha, evalOne]
      | succ j =>
        simp at hl
        rcases ih j a hl with h | h
        · left; simpa [check_alerts, ha] using h
        · right; simpa [check_alerts, ha] using h
    | false =>
      cases hf : fetch b.symbol with
      | err =>
        right
        cases i with
        | zero =>
          simp at hl
          subst hl
          simp [check_alerts, ha, hf]
        | succ j =>
          simp at hl
          simp [check_alerts, ha, hf, List.getElem?_map, hl]
      | empty =>
        cases i with
        | zero =>
          simp at hl
          subst hl
          left
          simp [check_alerts, ha, hf, evalOne]
        | succ j =>
          simp at hl
          rcases ih j a hl with h | h
          · left; simpa [check_alerts, ha, hf] using h
          · right; simpa [check_alerts, ha, hf] using h
      | quote p =>
        cases ht : evalTriggered b p with
        | true =>
          cases i with
          | zero =>
            simp at hl
            subst hl
            left
            simp [check_alerts, ha, hf, ht, evalOne]
          | succ j =>
            simp at hl
            rcases ih j a hl with h | h
            · left; simpa [check_alerts, ha, hf, ht] using h
            · right; simpa [check_alerts, ha, hf, ht] using h
        | false =>
          cases i with
          | zero =>
            simp at hl
            subst hl
            left
            simp [check_alerts, ha, hf, ht, evalOne]
          | succ j =>
            simp at hl
            rcases ih j a hl with h | h
            · left; simpa [check_alerts, ha, hf, ht] using h
            · right; simpa [check_alerts, ha, hf, ht] using h

theorem check_alerts_results_get_done (fetch : String → FetchResult)
    (sink : Note → Bool) :
    ∀ (l : List Alert) (i : ℕ) (a : Alert),
      (check_alerts fetch sink l).aborted = false → l[i]? = some a →
      ((check_alerts fetch sink l).results)[i]? = some (evalOne fetch a) := by
  intro l
  induction l with
  | nil => intro i a _ h; simp at h
  | cons b rest ih =>
    intro i a hab hl
    cases ha : b.triggered with
    | true =>
      have hab2 : (check_alerts fetch sink rest).aborted = false := by
        simpa [check_alerts, ha] using hab
      cases i with
      | zero =>
        simp at hl
        subst hl
        simp [check_alerts, ha, evalOne]
      | succ j =>
        simp at hl
        simpa [check_alerts, ha] using ih j a hab2 hl
    | false =>
      cases hf : fetch b.symbol with
      | err => simp [check_alerts, ha, hf] at hab
      | empty =>
        have hab2 : (check_alerts fetch sink rest).aborted = false := by
          simpa [check_alerts, ha, hf] using hab
        cases i with
        | zero =>
          simp at hl
          subst hl
          simp [check_alerts, ha, hf, evalOne]
        | succ j =>
          simp at hl
          simpa [check_alerts, ha, hf] using ih j a hab2 hl
      | quote p =>
        cases ht : evalTriggered b p with
        | true =>
          have hab2 : (check_alerts fetch sink rest).aborted = false := by
            simpa [check_alerts, ha, hf, ht] using hab
          cases i with
          | zero =>
            simp at hl
            subst hl
            simp [check_alerts, ha, hf, ht, evalOne]
          | succ j =>
            simp at hl
            simpa [check_alerts, ha, hf, ht] using ih j a hab2 hl
        | false =>
          have hab2 : (check_alerts fetch sink rest).aborted = false := by
            simpa [check_alerts, ha, hf, ht] using hab
          cases i with
          | zero =>
            simp at hl
            subst hl
            simp [check_alerts, ha, hf, ht, evalOne]
          | succ j =>
            simp at hl
            simpa [check_alerts, ha, hf, ht] using ih j a hab2 hl

theorem check_alerts_calls_untriggered (fetch : String → FetchResult)
    (sink : Note → Bool) :
    ∀ (l : List Alert) (b : Alert), b ∈ (check_alerts fetch sink l).calls →
      b.triggered = false := by
  intro l
  induction l with
  | nil => intro b h; simp [check_alerts] at h
  | cons a rest ih =>
    intro b hb
    cases ha : a.triggered with
    | true => exact ih b (by simpa [check_alerts, ha] using hb)
    | false =>
      cases hf : fetch a.symbol with
      | err =>
        have : b = a := by simpa [check_alerts, ha, hf] using hb
        rw [this]; exact ha
      | empty =>
        have : b = a ∨ b ∈ (check_alerts fetch sink rest).calls := by
          simpa [check_alerts, ha, hf] using hb
        rcases this with h | h
        · rw [h]; exact ha
        · exact ih b h
      | quote p =>
        cases ht : evalTriggered a p with
        | true =>
          have : b = a ∨ b ∈ (check_alerts fetch sink rest).calls := by
            simpa [check_alerts, ha, hf, ht] using hb
          rcases this with h | h
          · rw [h]; exact ha
          · exact ih b h
        | false =>
          have : b = a ∨ b ∈ (check_alerts fetch sink rest).calls := by
            simpa [check_alerts, ha, hf, ht] using hb
          rcases this with h | h
          · rw [h]; exact ha
          · exact ih b h

theorem check_alerts_sink_indep (fetch : String → FetchResult)
    (sink sink2 : Note → Bool) :
    ∀ l : List Alert,
      (check_alerts fetch sink l).results = (check_alerts fetch sink2 l).results ∧
      (check_alerts fetch sink l).calls = (check_alerts fetch sink2 l).calls ∧
      (check_alerts fetch sink l).aborted = (check_alerts fetch sink2 l).aborted := by
  intro l
  induction l with
  | nil => exact ⟨rfl, rfl, rfl⟩
  | cons a rest ih =>
    obtain ⟨h1, h2, h3⟩ := ih
    cases ha : a.triggered with
    | true => simp [check_alerts, ha, h1, h2, h3]
    | false =>
      cases hf : fetch a.symbol with
      | err => simp [check_alerts, ha, hf]
      | empty => simp [check_alerts, ha, hf, h1, h2, h3]
      | quote p =>
        cases ht : evalTriggered a p with
        | true => simp [check_alerts, ha, hf, ht, h1, h2, h3]
        | false => simp [check_alerts, ha, hf, ht, h1, h2, h3]

theorem cycleAlerts_get_fix (fetch : String → FetchResult) (sink : Note → Bool)
    (l : List Alert) (i : ℕ) (a : Alert) (hl : l[i]? = some a)
    (hfix : (evalOne fetch a).1 = a) :
    (cycleAlerts fetch sink l)[i]? = some a := by
  unfold cycleAlerts
  rcases check_alerts_results_get_total fetch sink l i a hl with h | h <;>
    simp [List.getElem?_map, h, hfix]

theorem cycles_get_fix :
    ∀ (n : ℕ) (F : ℕ → String → FetchResult) (S : ℕ → Note → Bool)
      (l : List Alert) (i : ℕ) (a : Alert),
      l[i]? = some a → (∀ fetch, (evalOne fetch a).1 = a) →
      (cycles F S n l)[i]? = some a := by
  intro n
  induction n with
  | zero =>
    intro F S l i a hl _
    simpa [cycles] using hl
  | succ m ih =>
    intro F S l i a hl hfix
    simp only [cycles]
    exact ih _ _ _ i a (cycleAlerts_get_fix (F 0) (S 0) l i a hl (hfix (F 0))) hfix

theorem check_alerts_results_get_triggered (fetch : String → FetchResult)
    (sink : Note → Bool) (l : List Alert) (i : ℕ) (a : Alert)
    (hl : l[i]? = some a) (ha : a.triggered = true) :
    ((check_alerts fetch sink l).results)[i]? = some (a, none) := by
  rcases check_alerts_results_get_total fetch sink l i a hl with h | h
  · rwa [evalOne_of_triggered fetch a ha] at h
  · exact h

theorem fetch_symbols_ok_ne_nil (r : YahooResp) (s : List String)
    (h : fetch_symbols r = .ok s) : s ≠ [] := by
  cases r with
  | raised => simp [fetch_symbols] at h
  | quotes syms =>
    cases hs : syms.isEmpty with
    | true => simp [fetch_symbols, hs] at h
    | false =>
      simp [fetch_symbols, hs] at h
      subst h
      simpa using hs

/-!
## The claims
-/

/-- C1: an untriggered alert is set to triggered by one (completed)
evaluation cycle iff a fresh quote is obtainable for its symbol and the
threshold comparison holds; in the ACME/BELOW/100 scenario with quote 95
the alert fires and the single notification body contains "ACME" and
"95.00". -/
theorem alerts_c1 :
    (∀ (fetch : String → FetchResult) (sink : Note → Bool) (store : List Alert)
        (i : ℕ) (a : Alert),
        store[i]? = some a → a.triggered = false →
        (check_alerts fetch sink store).aborted = false →
        (((check_alerts fetch sink store).results)[i]?.map
            (fun r => r.1.triggered) = some true ↔
          ∃ p, fetch a.symbol = FetchResult.quote p ∧
            ((a.condition = "above" ∧ a.target_price < p) ∨
             (a.condition = "below" ∧ p < a.target_price)))) ∧
    check_alerts (fun _ => .quote 95) (fun _ => true)
        [⟨"ACME", "below", 100, false⟩] =
      ⟨[(⟨"ACME", "below", 100, true⟩,
          some ⟨"ACME Alert 🚨", "ACME is now below $100.00 (current $95.00)"⟩)],
        [⟨"ACME", "below", 100, false⟩], false, []⟩ ∧
    notesOf (check_alerts (fun _ => .quote 95) (fun _ => true)
        [⟨"ACME", "below", 100, false⟩]) =
      [⟨"ACME Alert 🚨", "ACME is now below $100.00 (current $95.00)"⟩] ∧
    containsSub "ACME is now below $100.00 (current $95.00)" "ACME" = true ∧
    containsSub "ACME is now below $100.00 (current $95.00)" "95.00" = true := by
  refine ⟨?_, by decide, by decide, by decide, by decide⟩
  intro fetch sink store i a hl ha hab
  rw [check_alerts_results_get_done fetch sink store i a hab hl]
  cases hf : fetch a.symbol with
  | err => simp [evalOne, ha, hf]
  | empty => simp [evalOne, ha, hf]
  | quote p =>
    cases ht : evalTriggered a p with
    | true =>
      have heval : evalOne fetch a =
          ({ a with triggered := true }, some ⟨alertTitle a, alertBody a p⟩) := by
        simp [evalOne, ha, hf, ht]
      rw [heval]
      simp only [Option.map_some']
      constructor
      · intro _
        refine ⟨p, rfl, ?_⟩
        simpa [evalTriggered] using ht
      · intro _
        trivial
    | false =>
      have heval : evalOne fetch a = (a, none) := by
        simp [evalOne, ha, hf, ht]
      rw [heval]
      simp only [Option.map_some', ha]
      constructor
      · intro hcontra
        simp at hcontra
      · rintro ⟨q, hq, hcond⟩
        injection hq with hq
        subst hq
        simp [evalTriggered] at ht
        rcases hcond with ⟨h1, h2⟩ | ⟨h1, h2⟩
        · exact absurd h2 (not_lt.mpr (ht.1 h1))
        · exact absurd h2 (not_lt.mpr (ht.2 h1))

/-- C1 witness: the general iff of `alerts_c1` instantiated at the ACME
scenario store. -/
theorem alerts_c1_witness :
    ((check_alerts (fun _ => FetchResult.quote 95) (fun _ => true)
        [⟨"ACME", "below", 100, false⟩]).results)[0]?.map
        (fun r => r.1.triggered) = some true ↔
      ∃ p, (fun _ : String => FetchResult.quote 95) "ACME" = FetchResult.quote p ∧
        (((⟨"ACME", "below", 100, false⟩ : Alert).condition = "above" ∧
            (⟨"ACME", "below", 100, false⟩ : Alert).target_price < p) ∨
         ((⟨"ACME", "below", 100, false⟩ : Alert).condition = "below" ∧
            p < (⟨"ACME", "below", 100, false⟩ : Alert).target_price)) :=
  alerts_c1.1 (fun _ => FetchResult.quote 95) (fun _ => true)
    [⟨"ACME", "below", 100, false⟩] 0 ⟨"ACME", "below", 100, false⟩
    rfl rfl (by decide)

/-- C2: a triggered flag never reverts to false across any number of
evaluation cycles; a triggered alert is left untouched (no notification)
by each cycle; and the quote source is only ever called for alerts whose
triggered flag is false. -/
theorem alerts_c2 :
    (∀ (F : ℕ → String → FetchResult) (S : ℕ → Note → Bool) (n : ℕ)
        (store : List Alert) (i : ℕ) (a : Alert),
        store[i]? = some a → a.triggered = true →
        (cycles F S n store)[i]? = some a) ∧
    (∀ (fetch : String → FetchResult) (sink : Note → Bool) (store : List Alert)
        (i : ℕ) (a : Alert), store[i]? = some a → a.triggered = true →
        ((check_alerts fetch sink store).results)[i]? = some (a, none)) ∧
    (∀ (fetch : String → FetchResult) (sink : Note → Bool) (store : List Alert)
        (b : Alert), b ∈ (check_alerts fetch sink store).calls →
        b.triggered = false) := by
  refine ⟨?_, ?_, ?_⟩
  · intro F S n store i a hl ha
    exact cycles_get_fix n F S store i a hl
      (fun fetch => by rw [evalOne_of_triggered fetch a ha])
  · intro fetch sink store i a hl ha
    exact check_alerts_results_get_triggered fetch sink store i a hl ha
  · intro fetch sink store b hb
    exact check_alerts_calls_untriggered fetch sink store b hb

/-- C2 witness: a fired alert survives three cycles of falling prices
untouched, and a cycle over a store holding only fired alerts makes no
quote-source call. -/
theorem alerts_c2_witness :
    (cycles (fun _ _ => FetchResult.quote 0) (fun _ _ => true) 3
        [⟨"X", "above", 1, true⟩])[0]? = some ⟨"X", "above", 1, true⟩ ∧
    ((check_alerts (fun _ => FetchResult.quote 0) (fun _ => true)
        [⟨"X", "above", 1, true⟩]).results)[0]? =
      some (⟨"X", "above", 1, true⟩, none) ∧
    ¬(⟨"X", "above", 1, true⟩ : Alert) ∈
      (check_alerts (fun _ => FetchResult.quote 0) (fun _ => true)
        [⟨"X", "above", 1, true⟩]).calls := by
  refine ⟨?_, ?_, ?_⟩
  · exact alerts_c2.1 (fun _ _ => FetchResult.quote 0) (fun _ _ => true) 3
      [⟨"X", "above", 1, true⟩] 0 ⟨"X", "above", 1, true⟩ rfl rfl
  · exact alerts_c2.2.1 (fun _ => FetchResult.quote 0) (fun _ => true)
      [⟨"X", "above", 1, true⟩] 0 ⟨"X", "above", 1, true⟩ rfl rfl
  · intro hmem
    have := alerts_c2.2.2 (fun _ => FetchResult.quote 0) (fun _ => true)
      [⟨"X", "above", 1, true⟩] ⟨"X", "above", 1, true⟩ hmem
    simp at this

/-- C3 counterexample: with alerts AAA then BBB both untriggered, a raised
fetch for AAA aborts the cycle: BBB's quote source is never called and BBB
stays untriggered although its fetched price (2 > 1) would have fired it. -/
theorem alerts_c3_cex :
    (check_alerts (fun s => if s == "AAA" then .err else .quote 2)
        (fun _ => true)
        [⟨"AAA", "above", 1, false⟩, ⟨"BBB", "above", 1, false⟩]).calls =
      [⟨"AAA", "above", 1, false⟩] ∧
    (check_alerts (fun s => if s == "AAA" then .err else .quote 2)
        (fun _ => true)
        [⟨"AAA", "above", 1, false⟩, ⟨"BBB", "above", 1, false⟩]).results =
      [(⟨"AAA", "above", 1, false⟩, none), (⟨"BBB", "above", 1, false⟩, none)] ∧
    (check_alerts (fun s => if s == "AAA" then .err else .quote 2)
        (fun _ => true)
        [⟨"AAA", "above", 1, false⟩, ⟨"BBB", "above", 1, false⟩]).aborted =
      true ∧
    (if ("BBB" : String) == "AAA" then FetchResult.err else .quote 2) =
      .quote 2 ∧
    evalTriggered ⟨"BBB", "above", 1, false⟩ 2 = true := by
  decide

/-- C3 amended: within one cycle, a fetch returning EMPTY for one alert
does not abort evaluation of the subsequent alerts (the alert is skipped
and the rest of the store is processed exactly as before); a raised fetch
exception, by contrast, has no handler and aborts the cycle, leaving every
later alert unevaluated and unchanged. -/
theorem alerts_c3_amended :
    ∀ (fetch : String → FetchResult) (sink : Note → Bool) (a : Alert)
      (rest : List Alert), a.triggered = false →
      (fetch a.symbol = .empty →
        check_alerts fetch sink (a :: rest) =
          ⟨(a, none) :: (check_alerts fetch sink rest).results,
            a :: (check_alerts fetch sink rest).calls,
            (check_alerts fetch sink rest).aborted,
            (check_alerts fetch sink rest).sinkFailures⟩) ∧
      (fetch a.symbol = .err →
        check_alerts fetch sink (a :: rest) =
          ⟨(a :: rest).map (fun x => (x, none)), [a], true, []⟩) := by
  intro fetch sink a rest ha
  constructor
  · intro hf
    simp [check_alerts, ha, hf]
  · intro hf
    simp [check_alerts, ha, hf]

/-- C3 witness: the amended claim at a concrete two-alert store, in both
the EMPTY and the raised-exception case. -/
theorem alerts_c3_witness :
    check_alerts (fun _ => FetchResult.empty) (fun _ => true)
        [⟨"E", "above", 1, false⟩, ⟨"F", "above", 1, false⟩] =
      ⟨(⟨"E", "above", 1, false⟩, none) ::
          (check_alerts (fun _ => FetchResult.empty) (fun _ => true)
            [⟨"F", "above", 1, false⟩]).results,
        ⟨"E", "above", 1, false⟩ ::
          (check_alerts (fun _ => FetchResult.empty) (fun _ => true)
            [⟨"F", "above", 1, false⟩]).calls,
        (check_alerts (fun _ => FetchResult.empty) (fun _ => true)
          [⟨"F", "above", 1, false⟩]).aborted,
        (check_alerts (fun _ => FetchResult.empty) (fun _ => true)
          [⟨"F", "above", 1, false⟩]).sinkFailures⟩ ∧
    check_alerts (fun _ => FetchResult.err) (fun _ => true)
        [⟨"E", "above", 1, false⟩, ⟨"F", "above", 1, false⟩] =
      ⟨[(⟨"E", "above", 1, false⟩, none), (⟨"F", "above", 1, false⟩, none)],
        [⟨"E", "above", 1, false⟩], true, []⟩ :=
  ⟨(alerts_c3_amended (fun _ => FetchResult.empty) (fun _ => true)
      ⟨"E", "above", 1, false⟩ [⟨"F", "above", 1, false⟩] rfl).1 rfl,
   (alerts_c3_amended (fun _ => FetchResult.err) (fun _ => true)
      ⟨"E", "above", 1, false⟩ [⟨"F", "above", 1, false⟩] rfl).2 rfl⟩

/-- C7: an untriggered alert whose fetch returns EMPTY is left unchanged
with no notification, and (shown on a store holding exactly it) it is
re-fetched on every later cycle, with no retry limit. -/
theorem alerts_c7 :
    ∀ (fetch : String → FetchResult) (sink : Note → Bool) (store : List Alert)
      (i : ℕ) (a : Alert),
      store[i]? = some a → a.triggered = false → fetch a.symbol = .empty →
      ((check_alerts fetch sink store).results)[i]? = some (a, none) ∧
      ∀ n : ℕ,
        cycles (fun _ => fetch) (fun _ => sink) n [a] = [a] ∧
        (check_alerts fetch sink
          (cycles (fun _ => fetch) (fun _ => sink) n [a])).calls = [a] := by
  intro fetch sink store i a hl ha hf
  have hone : check_alerts fetch sink [a] =
      ⟨[(a, none)], [a], false, []⟩ := by
    simp [check_alerts, ha, hf]
  have hfixpt : ∀ n : ℕ,
      cycles (fun _ => fetch) (fun _ => sink) n [a] = [a] := by
    intro n
    induction n with
    | zero => rfl
    | succ m ih =>
      have hcy : cycleAlerts fetch sink [a] = [a] := by
        simp [cycleAlerts, hone]
      simpa [cycles, hcy] using ih
  refine ⟨?_, fun n => ⟨hfixpt n, ?_⟩⟩
  · rcases check_alerts_results_get_total fetch sink store i a hl with h | h
    · rw [h]
      simp [evalOne, ha, hf]
    · exact h
  · rw [hfixpt n, hone]

/-- C7 witness: the EMPTY case at a concrete one-alert store, checked for
three successive cycles. -/
theorem alerts_c7_witness :
    ((check_alerts (fun _ => FetchResult.empty) (fun _ => true)
        [⟨"ACME", "below", 100, false⟩]).results)[0]? =
      some (⟨"ACME", "below", 100, false⟩, none) ∧
    cycles (fun _ _ => FetchResult.empty) (fun _ _ => true) 3
        [⟨"ACME", "below", 100, false⟩] = [⟨"ACME", "below", 100, false⟩] ∧
    (check_alerts (fun _ => FetchResult.empty) (fun _ => true)
        (cycles (fun _ _ => FetchResult.empty) (fun _ _ => true) 3
          [⟨"ACME", "below", 100, false⟩])).calls =
      [⟨"ACME", "below", 100, false⟩] := by
  have h := alerts_c7 (fun _ => FetchResult.empty) (fun _ => true)
    [⟨"ACME", "below", 100, false⟩] 0 ⟨"ACME", "below", 100, false⟩
    rfl rfl rfl
  exact ⟨h.1, (h.2 3).1, (h.2 3).2⟩

/-- C8: the cycle's outcome on the store (results, calls, abort status) is
the same whatever the notification sink does, so a sink failure never
reverses a transition; on a transition the evaluator attempts exactly one
notification (the alert's result slot carries exactly one note), and on
the following cycle the fired alert is skipped with no further attempt. -/
theorem alerts_c8 :
    (∀ (fetch : String → FetchResult) (sink sink2 : Note → Bool)
        (store : List Alert),
        (check_alerts fetch sink store).results =
          (check_alerts fetch sink2 store).results ∧
        (check_alerts fetch sink store).calls =
          (check_alerts fetch sink2 store).calls ∧
        (check_alerts fetch sink store).aborted =
          (check_alerts fetch sink2 store).aborted) ∧
    (∀ (fetch : String → FetchResult) (sink : Note → Bool) (store : List Alert)
        (i : ℕ) (a : Alert) (p : ℚ),
        store[i]? = some a → a.triggered = false →
        fetch a.symbol = FetchResult.quote p → evalTriggered a p = true →
        (check_alerts fetch sink store).aborted = false →
        ((check_alerts fetch sink store).results)[i]? =
          some ({ a with triggered := true },
            some ⟨alertTitle a, alertBody a p⟩) ∧
        ∀ (fetch2 : String → FetchResult) (sink2 : Note → Bool),
          ((check_alerts fetch2 sink2 (cycleAlerts fetch sink store)).results)[i]? =
            some ({ a with triggered := true }, none)) := by
  constructor
  · intro fetch sink sink2 store
    exact check_alerts_sink_indep fetch sink sink2 store
  · intro fetch sink store i a p hl ha hf ht hab
    have hres := check_alerts_results_get_done fetch sink store i a hab hl
    have heval : evalOne fetch a =
        ({ a with triggered := true }, some ⟨alertTitle a, alertBody a p⟩) := by
      simp [evalOne, ha, hf, ht]
    rw [heval] at hres
    refine ⟨hres, ?_⟩
    intro fetch2 sink2
    have hl2 : (cycleAlerts fetch sink store)[i]? =
        some { a with triggered := true } := by
      unfold cycleAlerts
      simp [List.getElem?_map, hres]
    exact check_alerts_results_get_triggered fetch2 sink2 _ i
      { a with triggered := true } hl2 rfl

/-- C8 witness: a transition whose notification post raises
(`sink = fun _ => false`): the alert still ends fired with exactly one
attempted note, and the next cycle attempts none. -/
theorem alerts_c8_witness :
    ((check_alerts (fun _ => FetchResult.quote 2) (fun _ => false)
        [⟨"X", "above", 1, false⟩]).results)[0]? =
      some (⟨"X", "above", 1, true⟩,
        some ⟨alertTitle ⟨"X", "above", 1, false⟩,
          alertBody ⟨"X", "above", 1, false⟩ 2⟩) ∧
    ((check_alerts (fun _ => FetchResult.quote 2) (fun _ => false)
        (cycleAlerts (fun _ => FetchResult.quote 2) (fun _ => false)
          [⟨"X", "above", 1, false⟩])).results)[0]? =
      some (⟨"X", "above", 1, true⟩, none) := by
  have h := alerts_c8.2 (fun _ => FetchResult.quote 2) (fun _ => false)
    [⟨"X", "above", 1, false⟩] 0 ⟨"X", "above", 1, false⟩ 2
    rfl rfl rfl (by decide) (by decide)
  exact ⟨h.1, h.2 (fun _ => FetchResult.quote 2) (fun _ => false)⟩

/-- C9 counterexample: `create_alert` does not trim: the stored symbol for
input `" acme "` is `" ACME "`, not the trimmed-and-uppercased `"ACME"`. -/
theorem create_alert_c9_cex :
    (create_alert ⟨" acme ", "below", 100, false⟩ []).1 =
      [⟨" ACME ", "below", 100, false⟩] ∧
    pyUpper (pyStrip " acme ") = "ACME" ∧
    (" ACME " : String) ≠ "ACME" := by
  refine ⟨?_, by decide, by decide⟩
  decide

/-- C9 amended: the symbol stored by `create_alert` is the uppercased (but
not whitespace-trimmed) input symbol, with the uppercasing performed at
creation before the append. -/
theorem create_alert_c9_amended :
    ∀ (a : Alert) (db : List Alert),
      create_alert a db =
        (db ++ [{ a with symbol := pyUpper a.symbol }],
          { a with symbol := pyUpper a.symbol }) := by
  intro a db
  rfl

/-- C10: an alert whose condition is any string other than the exact
lowercase literals "above"/"below" can never fire: its trigger predicate
is false at every price, every cycle leaves it unchanged with no
notification, and it survives any number of cycles unchanged. -/
theorem alerts_c10 :
    ∀ a : Alert, a.condition ≠ "above" → a.condition ≠ "below" →
      (∀ p, evalTriggered a p = false) ∧
      (∀ (fetch : String → FetchResult) (sink : Note → Bool)
          (store : List Alert) (i : ℕ), store[i]? = some a →
          ((check_alerts fetch sink store).results)[i]? = some (a, none)) ∧
      (∀ (F : ℕ → String → FetchResult) (S : ℕ → Note → Bool) (n : ℕ)
          (store : List Alert) (i : ℕ), store[i]? = some a →
          (cycles F S n store)[i]? = some a) := by
  intro a h1 h2
  refine ⟨evalTriggered_of_cond_other a h1 h2, ?_, ?_⟩
  · intro fetch sink store i hl
    rcases check_alerts_results_get_total fetch sink store i a hl with h | h
    · rwa [evalOne_of_cond_other fetch a h1 h2] at h
    · exact h
  · intro F S n store i hl
    exact cycles_get_fix n F S store i a hl
      (fun fetch => by rw [evalOne_of_cond_other fetch a h1 h2])

/-- C10 witness: an alert with condition "ABOVE" (uppercase) is never
fired even when the price is far past the target. -/
theorem alerts_c10_witness :
    evalTriggered ⟨"X", "ABOVE", 1, false⟩ 1000 = false ∧
    ((check_alerts (fun _ => FetchResult.quote 1000) (fun _ => true)
        [⟨"X", "ABOVE", 1, false⟩]).results)[0]? =
      some (⟨"X", "ABOVE", 1, false⟩, none) ∧
    (cycles (fun _ _ => FetchResult.quote 1000) (fun _ _ => true) 3
        [⟨"X", "ABOVE", 1, false⟩])[0]? = some ⟨"X", "ABOVE", 1, false⟩ := by
  have h := alerts_c10 ⟨"X", "ABOVE", 1, false⟩ (by decide) (by decide)
  exact ⟨h.1 1000,
    h.2.1 (fun _ => FetchResult.quote 1000) (fun _ => true)
      [⟨"X", "ABOVE", 1, false⟩] 0 rfl,
    h.2.2 (fun _ _ => FetchResult.quote 1000) (fun _ _ => true) 3
      [⟨"X", "ABOVE", 1, false⟩] 0 rfl⟩


/-- C4: for region US the strategies are tried strictly in order; when the
trending feed fails and the day-gainers screener succeeds with `syms`, the
resolver returns exactly `syms` in that order, the most-actives screener
and the FMP fallback are never invoked, and the enrichment pass then
processes exactly `syms` in that order with no re-sorting. -/
theorem trend_c4 :
    ∀ (yahoo : Strategy → YahooResp) (fmp : String → Except Unit FmpResp)
      (syms : List String),
      fetch_symbols (yahoo .trendingFeed) = .error () →
      fetch_symbols (yahoo .dayGainers) = .ok syms →
      resolve_symbols "US" yahoo fmp =
        (.ok syms, [.trendingFeed, .dayGainers], false) ∧
      Strategy.mostActives ∉ [Strategy.trendingFeed, Strategy.dayGainers] ∧
      ∀ (meta : String → Option String × Option String)
        (hist : String → Except Unit (List ℚ)),
        get_trending "US" yahoo fmp meta hist =
          ⟨(enrich meta hist syms).1, [.trendingFeed, .dayGainers], false,
            (enrich meta hist syms).2⟩ := by
  intro yahoo fmp syms h1 h2
  have hreg : pyUpper "US" = "US" := by decide
  have hy : yahooPhase (pyUpper "US") yahoo =
      (syms, [.trendingFeed, .dayGainers]) := by
    rw [hreg]
    simp [yahooPhase, h1, h2]
  have hempty : syms.isEmpty = false := by
    cases hs : syms with
    | nil => exact absurd hs (fetch_symbols_ok_ne_nil _ _ h2)
    | cons x xs => rfl
  have hres : resolve_symbols "US" yahoo fmp =
      (.ok syms, [.trendingFeed, .dayGainers], false) := by
    simp [resolve_symbols, hy, hempty]
  refine ⟨hres, by decide, ?_⟩
  intro meta hist
  simp [get_trending, hres]

/-- C4 witness: the tiered resolver at a concrete oracle whose day-gainers
screener answers `["A", "B"]`. -/
theorem trend_c4_witness :
    resolve_symbols "US" w4yahoo okFmpEmpty =
      (.ok ["A", "B"], [.trendingFeed, .dayGainers], false) ∧
    Strategy.mostActives ∉ [Strategy.trendingFeed, Strategy.dayGainers] ∧
    get_trending "US" w4yahoo okFmpEmpty c5meta c5hist =
      ⟨(enrich c5meta c5hist ["A", "B"]).1, [.trendingFeed, .dayGainers],
        false, (enrich c5meta c5hist ["A", "B"]).2⟩ := by
  have h := trend_c4 w4yahoo okFmpEmpty ["A", "B"] rfl rfl
  exact ⟨h.1, h.2.1, h.2.2 c5meta c5hist⟩

/-- C5 counterexample: with resolved symbols `["A", "B"]` where A's
underlying history fetch raises (a non-HTTP exception) and B's would
succeed, `get_trending` does not return a partial record for A and a full
record for B: the exception propagates, the whole call fails, B is never
enriched and both symbols are dropped from the (absent) result. -/
theorem trend_c5_cex :
    (get_trending "US" c5yahoo okFmpEmpty c5meta c5hist).result =
      .error .other ∧
    (get_trending "US" c5yahoo okFmpEmpty c5meta c5hist).enrichCalls =
      ["A"] ∧
    get_current_price c5meta c5hist "B" =
      .ok ⟨"B", some "Name", some "Logo", 2⟩ := by
  decide

/-- C5 amended: a per-symbol enrichment failure of the no-data kind — the
price lookup raising `HTTPException(404, ...)` because fewer than two rows
of history are available — is isolated: the result keeps a partial record
(symbol only) for the failing symbol and a fully populated record for the
succeeding one, in order, and no symbol is dropped.  A raised (non-HTTP)
exception from the underlying quote source is not caught and aborts the
resolution instead. -/
theorem trend_c5_amended :
    ∀ (yahoo : Strategy → YahooResp) (fmp : String → Except Unit FmpResp)
      (meta : String → Option String × Option String)
      (hist : String → Except Unit (List ℚ)) (A B : String)
      (la closes : List ℚ) (p : ℚ),
      fetch_symbols (yahoo .trendingFeed) = .ok [A, B] →
      hist (pyUpper (pyStrip A)) = .ok la → la.length < 2 →
      hist (pyUpper (pyStrip B)) = .ok closes → 2 ≤ closes.length →
      closes.getLast? = some p →
      (get_trending "US" yahoo fmp meta hist).result =
        .ok [⟨A, none, none, none⟩,
          ⟨pyUpper (pyStrip B), (meta (pyUpper (pyStrip B))).1,
            (meta (pyUpper (pyStrip B))).2, some p⟩] ∧
      (get_trending "US" yahoo fmp meta hist).enrichCalls = [A, B] := by
  intro yahoo fmp meta hist A B la closes p h1 hA hlenA hB hlenB hlast
  have hreg : pyUpper "US" = "US" := by decide
  have hy : yahooPhase (pyUpper "US") yahoo = ([A, B], [.trendingFeed]) := by
    rw [hreg]
    simp [yahooPhase, h1]
  have hres : resolve_symbols "US" yahoo fmp =
      (.ok [A, B], [.trendingFeed], false) := by
    simp [resolve_symbols, hy]
  have hgA : get_current_price meta hist A =
      .error (.http 404 "Symbol not found or insufficient data") := by
    simp [get_current_price, hA, hlenA]
  have hgB : get_current_price meta hist B =
      .ok ⟨pyUpper (pyStrip B), (meta (pyUpper (pyStrip B))).1,
        (meta (pyUpper (pyStrip B))).2, p⟩ := by
    simp [get_current_price, hB, Nat.not_lt.mpr hlenB, hlast]
  have henrich : enrich meta hist [A, B] =
      (.ok [⟨A, none, none, none⟩,
          ⟨pyUpper (pyStrip B), (meta (pyUpper (pyStrip B))).1,
            (meta (pyUpper (pyStrip B))).2, some p⟩], [A, B]) := by
    simp [enrich, hgA, hgB]
  constructor
  · simp [get_trending, hres, henrich]
  · simp [get_trending, hres, henrich]

/-- C5 witness: the amended isolation at a concrete oracle where A's
history is an empty frame and B's has two closes. -/
theorem trend_c5_witness :
    (get_trending "US" c5yahoo okFmpEmpty c5meta w5hist).result =
      .ok [⟨"A", none, none, none⟩,
        ⟨pyUpper (pyStrip "B"), (c5meta (pyUpper (pyStrip "B"))).1,
          (c5meta (pyUpper (pyStrip "B"))).2, some 2⟩] ∧
    (get_trending "US" c5yahoo okFmpEmpty c5meta w5hist).enrichCalls =
      ["A", "B"] := by
  exact trend_c5_amended c5yahoo okFmpEmpty c5meta w5hist "A" "B" [] [1, 2] 2
    rfl rfl (by decide) rfl (by decide) rfl

/-- C6: when every region strategy fails and the FMP fallback answers OK
with zero symbols, the resolver fails with the user-visible
`HTTPException(502, "No trending/gainers for region '...'")` (the
NO_RESULTS error); the FMP fallback is consulted exactly once and no
Yahoo strategy is retried (the invocation list has no duplicates). -/
theorem trend_c6 :
    ∀ (region : String) (yahoo : Strategy → YahooResp)
      (fmp : String → Except Unit FmpResp) (resp : FmpResp),
      (∀ st, fetch_symbols (yahoo st) = .error ()) →
      fmp (FMP_EXCHANGE (pyUpper region)) = .ok resp →
      resp.ok = true → resp.syms = [] →
      (resolve_symbols region yahoo fmp).1 =
        .error (.http 502
          ("No trending/gainers for region '" ++ pyUpper region ++ "'")) ∧
      (resolve_symbols region yahoo fmp).2.2 = true ∧
      ((resolve_symbols region yahoo fmp).2.1).Nodup := by
  intro region yahoo fmp resp hall hfmp hok hsyms
  by_cases hreg : (pyUpper region == "US") = true
  · have hy : yahooPhase (pyUpper region) yahoo =
        ([], [.trendingFeed, .dayGainers, .mostActives]) := by
      simp [yahooPhase, hreg, hall .trendingFeed, hall .dayGainers,
        hall .mostActives]
    refine ⟨?_, ?_, ?_⟩ <;>
      simp [resolve_symbols, hy, hfmp, hok, hsyms]
  · have hy : yahooPhase (pyUpper region) yahoo = ([], []) := by
      simp [yahooPhase, hreg]
    refine ⟨?_, ?_, ?_⟩ <;>
      simp [resolve_symbols, hy, hfmp, hok, hsyms]

/-- C6 witness: region US, all Yahoo strategies raising, FMP answering
200 OK with an empty array. -/
theorem trend_c6_witness :
    (resolve_symbols "US" c6yahoo okFmpEmpty).1 =
      .error (.http 502
        ("No trending/gainers for region '" ++ pyUpper "US" ++ "'")) ∧
    (resolve_symbols "US" c6yahoo okFmpEmpty).2.2 = true ∧
    ((resolve_symbols "US" c6yahoo okFmpEmpty).2.1).Nodup :=
  trend_c6 "US" c6yahoo okFmpEmpty ⟨true, 200, []⟩ (fun _ => rfl) rfl rfl rfl
